import Mathlib

/-!
Verification of the encrypted-image service core (container codec,
authenticated decryptor, format sniffer, decode-fallback engine,
presentation sink) against its natural-language specification.

Byte buffers (`Uint8Array`) are embedded as `List Nat` whose entries are
byte values (< 256 wherever they originate from a typed array).  JavaScript
strings are embedded as `List Char`.  The platform AEAD primitive
(`window.crypto.subtle.decrypt` for AES-256-GCM) is not part of the
repository; it is passed in as an explicit function parameter of type
`AeadDec`, so every theorem quantifies over the primitive's behaviour.
-/

/-- JavaScript indexed read compared with a constant:
`bytes[i] === v` (out-of-range reads give `undefined`, which compares
unequal to every byte value). -/
def bAt (l : List Nat) (i v : Nat) : Bool :=
  l[i]? == some v

/-- RIFF signature check from `render.ts` / `decrypt.ts`:
`bytes[0]===0x52 && bytes[1]===0x49 && bytes[2]===0x46 && bytes[3]===0x46`. -/
def hasRiffHeader (l : List Nat) : Bool :=
  bAt l 0 0x52 && bAt l 1 0x49 && bAt l 2 0x46 && bAt l 3 0x46

/-- WebP signature check: RIFF plus `WEBP` at bytes 8..11. -/
def hasWebpHeader (l : List Nat) : Bool :=
  hasRiffHeader l && bAt l 8 0x57 && bAt l 9 0x45 && bAt l 10 0x42 && bAt l 11 0x50

/-- JPEG signature check: `bytes[0]===0xFF && bytes[1]===0xD8 && bytes[2]===0xFF`. -/
def hasJpegHeader (l : List Nat) : Bool :=
  bAt l 0 0xFF && bAt l 1 0xD8 && bAt l 2 0xFF

/-- AVIF signature check from `render.ts` line 20:
`fullBytes.slice(4, 8).every((byte, i) => byte === [0x66,0x74,0x79,0x70][i])`.
Note `Array.every` is vacuously true on a short slice, exactly as in JS. -/
def hasAvifHeader (l : List Nat) : Bool :=
  (((l.drop 4).take 4).zip [0x66, 0x74, 0x79, 0x70]).all fun p => p.1 == p.2

/-- Unsigned little-endian 32-bit value at byte offset 4 (byte-valued entries). -/
def riffRaw (l : List Nat) : Nat :=
  l.getD 4 0 + 256 * l.getD 5 0 + 65536 * l.getD 6 0 + 16777216 * l.getD 7 0

/-- JavaScript `ToInt32`: interpret a value modulo `2^32` as a signed
32-bit integer, which is what the bitwise-or chain
`b4 | (b5<<8) | (b6<<16) | (b7<<24)` produces. -/
def toInt32 (n : Nat) : Int :=
  if n % 4294967296 < 2147483648 then ((n % 4294967296 : Nat) : Int)
  else ((n % 4294967296 : Nat) : Int) - 4294967296

/-- The `riffSize` computed by the source:
`(b[4] | (b[5]<<8) | (b[6]<<16) | (b[7]<<24)) + 8`, a SIGNED 32-bit read
of the RIFF size field (JS bitwise operators work on Int32) plus 8. -/
def riffSizeOf (l : List Nat) : Int :=
  toInt32 (riffRaw l) + 8

/-- End index of JavaScript `TypedArray.prototype.slice(0, e)`:
a negative `e` counts from the end (clamped at 0), a non-negative `e`
is clamped to the length. -/
def jsSliceEnd (len : Nat) (e : Int) : Nat :=
  if e < 0 then ((len : Int) + e).toNat else min e.toNat len

/-- JavaScript `bytes.slice(0, e)` where `e` may be any (possibly
negative) integer. -/
def jsSliceTo (l : List Nat) (e : Int) : List Nat :=
  l.take (jsSliceEnd l.length e)

/-- Index of the first `FF D9` (JPEG end-of-image marker) pair, if any. -/
def jpegScan : List Nat → Option Nat
  | 255 :: 217 :: _ => some 0
  | _ :: rest => (jpegScan rest).map (· + 1)
  | [] => none

/-- End of the JPEG data per `decrypt.ts` lines 117-124: position just
after the first `FF D9` marker, or the whole length when absent. -/
def jpegEndOf (l : List Nat) : Nat :=
  match jpegScan l with
  | some i => i + 2
  | none => l.length

/-- Container format tag, `"aeia"` (AVIF) or `"aeiw"` (WebP). -/
inductive AeFormat
  | aeia
  | aeiw
deriving DecidableEq

/-- The four magic bytes of each container format. -/
def magicBytes : AeFormat → List Nat
  | .aeia => [0x61, 0x65, 0x69, 0x61]
  | .aeiw => [0x61, 0x65, 0x69, 0x77]

/-- Result record of `parseAe` (interface `ParsedAeFile` in `parse.ts`). -/
structure ParsedAeFile where
  format : AeFormat
  iv : List Nat
  cipher : List Nat
  tag : List Nat
  tail : List Nat
deriving DecidableEq

/-- The three `throw` sites of `parseAe`. -/
inductive ParseErr
  | tooSmallMagic
  | badMagic
  | tooSmallBody
deriving DecidableEq

/-- Embedding of `parseAe` (`src/lib/crypto/parse.ts`).
The magic comparison is against the exact ASCII bytes of `"aeia"` /
`"aeiw"` (the `TextDecoder('ascii')` decode is injective on the byte
values involved).  The `bytes.length < minFileSize` branch in the source
only adjusts the cipher size; it throws exactly when
`bytes.length - 16 - 16 <= 0`.  Slices mirror the source offsets:
iv = `[4,16)`, cipher = `[16, 16+actualCipherSize)` with
`actualCipherSize = min(1_048_576, len-32)`, tag = the next 16 bytes,
tail = everything after. -/
def parseAe (bytes : List Nat) : Except ParseErr ParsedAeFile :=
  if bytes.length < 4 then .error .tooSmallMagic
  else
    let magic := bytes.take 4
    if magic = magicBytes .aeia ∨ magic = magicBytes .aeiw then
      if bytes.length ≤ 32 then .error .tooSmallBody
      else
        let actualCipherSize := min 1048576 (bytes.length - 16 - 16)
        .ok { format := if magic = magicBytes .aeia then .aeia else .aeiw
              iv := (bytes.drop 4).take 12
              cipher := (bytes.drop 16).take actualCipherSize
              tag := (bytes.drop (16 + actualCipherSize)).take 16
              tail := bytes.drop (16 + actualCipherSize + 16) }
    else .error .badMagic

/-- JavaScript line terminators, which `.` in a regex does not match. -/
def isLineTerm (c : Char) : Bool :=
  c.toNat = 10 ∨ c.toNat = 13 ∨ c.toNat = 0x2028 ∨ c.toNat = 0x2029

/-- The match list of `hex.match(/.{1,2}/g)`: scan left to right, a
greedy match takes two consecutive dot-matchable characters when it can,
one otherwise; line terminators never start or extend a match. -/
def hexGroups : List Char → List (List Char)
  | [] => []
  | [c] => if isLineTerm c then [] else [[c]]
  | c :: d :: rest =>
    if isLineTerm c then hexGroups (d :: rest)
    else if isLineTerm d then [c] :: hexGroups rest
    else [c, d] :: hexGroups rest

/-- JavaScript `StrWhiteSpace` characters skipped by `parseInt`. -/
def isJsWhitespace (c : Char) : Bool :=
  c.toNat = 9 ∨ c.toNat = 10 ∨ c.toNat = 11 ∨ c.toNat = 12 ∨ c.toNat = 13 ∨
  c.toNat = 32 ∨ c.toNat = 0xA0 ∨ c.toNat = 0x1680 ∨
  (0x2000 ≤ c.toNat ∧ c.toNat ≤ 0x200A) ∨
  c.toNat = 0x2028 ∨ c.toNat = 0x2029 ∨ c.toNat = 0x202F ∨
  c.toNat = 0x205F ∨ c.toNat = 0x3000 ∨ c.toNat = 0xFEFF

/-- Value of a single hexadecimal digit character, if it is one. -/
def hexDigitVal (c : Char) : Option Nat :=
  if 48 ≤ c.toNat ∧ c.toNat ≤ 57 then some (c.toNat - 48)
  else if 97 ≤ c.toNat ∧ c.toNat ≤ 102 then some (c.toNat - 87)
  else if 65 ≤ c.toNat ∧ c.toNat ≤ 70 then some (c.toNat - 55)
  else none

/-- JavaScript `parseInt(s, 16)`: skip leading whitespace, read an
optional sign, strip an optional `0x`/`0X`, then the longest prefix of
hex digits; `none` models `NaN` (no digits). -/
def jsParseIntHex (g : List Char) : Option Int :=
  let g1 := g.dropWhile isJsWhitespace
  let signed : Int × List Char :=
    match g1 with
    | c :: r => if c = '-' then (-1, r) else if c = '+' then (1, r) else (1, g1)
    | [] => (1, g1)
  let g3 :=
    match signed.2 with
    | x :: y :: r => if x = '0' ∧ (y = 'x' ∨ y = 'X') then r else signed.2
    | _ => signed.2
  let ds := (g3.takeWhile fun c => (hexDigitVal c).isSome).map fun c => (hexDigitVal c).getD 0
  if ds = [] then none
  else some (signed.1 * (ds.foldl (fun a d => 16 * a + d) 0 : Nat))

/-- JavaScript `ToUint8` as applied by a `Uint8Array` store: `NaN`
becomes 0, any other (integer) value is taken modulo 256. -/
def jsToUint8 (v : Option Int) : Nat :=
  match v with
  | none => 0
  | some i => (i % 256).toNat

/-- Byte stored for one regex match group: `parseInt(byte, 16)` fed into
the `Uint8Array` constructor. -/
def jsGroupByte (g : List Char) : Nat :=
  jsToUint8 (jsParseIntHex g)

/-- The two `throw` sites of `hexToBytes`. -/
inductive HexErr
  | oddLength
  | noMatch
deriving DecidableEq

/-- Embedding of `hexToBytes` (`src/lib/crypto/decrypt.ts` lines 5-22):
reject odd length, split with `/.{1,2}/g` (rejecting a null match
result), and map each group through `parseInt(·, 16)` into a
`Uint8Array`. -/
def hexToBytes (hex : List Char) : Except HexErr (List Nat) :=
  if hex.length % 2 ≠ 0 then .error .oddLength
  else
    let groups := hexGroups hex
    if groups = [] then .error .noMatch
    else .ok (groups.map jsGroupByte)

/-- The platform AEAD primitive: key bytes, IV, ciphertext-with-appended-tag
to an optional plaintext (`none` models a rejected tag / thrown
`OperationError`). -/
def AeadDec : Type :=
  List Nat → List Nat → List Nat → Option (List Nat)

/-- Failure cases of `decryptHeadAESGCM`, all surfaced by the source as a
`복호화 실패:` wrapper whose message preserves the sub-case. -/
inductive DecryptErr
  | hexFail (e : HexErr)
  | badKeyLength (n : Nat)
  | aeadFail
deriving DecidableEq

/-- Post-processing of the decrypted bytes (`decrypt.ts` lines 96-139):
a RIFF/WebP head is cut down to `slice(0, Math.min(riffSize, len))`
(declared RIFF size plus 8, removing padding), a JPEG head is cut just
after the first `FF D9` marker, anything else is returned whole. -/
def postprocessDecrypted (p : List Nat) : List Nat :=
  if hasWebpHeader p then jsSliceTo p (min (riffSizeOf p) (p.length : Int))
  else if hasJpegHeader p then p.take (jpegEndOf p)
  else p

/-- Embedding of `decryptHeadAESGCM` (`src/lib/crypto/decrypt.ts`):
decode the hex key, reject a key that is not exactly 32 bytes before the
primitive is touched, call the AEAD on `cipher ++ tag` (the source
concatenates the tag after the ciphertext), and post-process the
plaintext. -/
def decryptHeadAESGCM (dec : AeadDec) (keyHex : List Char)
    (iv cipher tag : List Nat) : Except DecryptErr (List Nat) :=
  match hexToBytes keyHex with
  | .error e => .error (.hexFail e)
  | .ok keyBytes =>
    if keyBytes.length ≠ 32 then .error (.badKeyLength keyBytes.length)
    else
      match dec keyBytes iv (cipher ++ tag) with
      | none => .error .aeadFail
      | some decryptedBytes => .ok (postprocessDecrypted decryptedBytes)

/-- Boolean success test for an `Except` value. -/
def isOkE : Except ε α → Bool
  | .ok _ => true
  | .error _ => false

theorem parseAe_isOk (bytes : List Nat) :
    isOkE (parseAe bytes) = true ↔
      (32 < bytes.length ∧
        (bytes.take 4 = magicBytes .aeia ∨ bytes.take 4 = magicBytes .aeiw)) := by
  simp only [parseAe]
  split
  · simp only [isOkE]
    constructor
    · intro h; exact absurd h (by simp)
    · intro h; omega
  · split
    · split
      · simp only [isOkE]
        constructor
        · intro h; exact absurd h (by simp)
        · intro h; omega
      · simp only [isOkE]
        constructor
        · intro _; constructor
          · omega
          · assumption
        · intro _; trivial
    · simp only [isOkE]
      constructor
      · intro h; exact absurd h (by simp)
      · intro h; exact absurd h.2 (by assumption)

theorem parseAe_ok_length {bytes : List Nat} {pr : ParsedAeFile}
    (h : parseAe bytes = .ok pr) : 32 < bytes.length := by
  have := (parseAe_isOk bytes).1 (by rw [h]; rfl)
  exact this.1

/-- Environment oracles for the rendering layer: whether each platform
decode route succeeds on given bytes tagged with a given MIME type, and
whether `canvas.getContext("2d")` yields a context during the final
paint.  `directDecode` models `createImageBitmap` on a `Blob`,
`imageObjectDecode` models the `Image`-element-plus-base64-data-URL
route (success includes non-zero natural dimensions), `blobUrlDecode`
the `Image`-element-plus-blob-URL route. -/
structure RenderEnv where
  directDecode : List Nat → String → Bool
  imageObjectDecode : List Nat → String → Bool
  blobUrlDecode : List Nat → String → Bool
  ctx2d : Bool

/-- Terminal outcome of one `renderToCanvas` call.  `thrown` models an
exception escaping `renderToCanvas` (the `throw renderError` at
`render.ts` line 122); every other constructor is a normal return with
the canvas left in the corresponding visual state. -/
inductive RenderResult
  | unsupportedPanel (fmt : String)
  | textPanel
  | painted
  | decodeFailedPanel
  | thrown
deriving DecidableEq

/-- `primaryMime` from `render.ts` line 14. -/
def primaryMime : AeFormat → String
  | .aeia => "image/avif"
  | .aeiw => "image/webp"

/-- `fallbackMime` from `render.ts` line 15. -/
def fallbackMime : AeFormat → String
  | .aeia => "image/webp"
  | .aeiw => "image/avif"

/-- The RIFF/WebP length trim performed identically at `render.ts`
lines 42-54 (`renderToCanvas`) and lines 561-571
(`createImageBitmapWithFallback`): when the stream carries a RIFF/WebP
header and `riffSize <= len`, keep `slice(0, riffSize)`; otherwise use
the whole buffer (AVIF and all other streams are passed through). -/
def riffTrim (bytes : List Nat) : List Nat :=
  if hasWebpHeader bytes then
    if riffSizeOf bytes ≤ (bytes.length : Int) then jsSliceTo bytes (riffSizeOf bytes)
    else bytes
  else bytes

/-- Success of `createImageBitmapWithFallback` (`render.ts` lines
554-600): trim, then try `image/avif`, then `image/webp`.  The source's
`_format` parameter is declared but never read. -/
def createImageBitmapWithFallback (env : RenderEnv) (bytes : List Nat)
    (_format : AeFormat) : Bool :=
  let imageData := riffTrim bytes
  env.directDecode imageData "image/avif" || env.directDecode imageData "image/webp"

/-- The ordered MIME tags `createImageBitmapWithFallback` actually
attempts: always `image/avif` first, and `image/webp` exactly when the
first attempt failed. -/
def cibfAttemptMimes (env : RenderEnv) (bytes : List Nat)
    (_format : AeFormat) : List String :=
  let imageData := riffTrim bytes
  if env.directDecode imageData "image/avif" then ["image/avif"]
  else ["image/avif", "image/webp"]

/-- Success of `tryBlobUrlFallback` (`render.ts` lines 259-303): the
blob-URL route over `[primaryMime, fallbackMime, "image/*"]`. -/
def tryBlobUrlFallback (env : RenderEnv) (imageData : List Nat)
    (format : AeFormat) : Bool :=
  env.blobUrlDecode imageData (primaryMime format) ||
  env.blobUrlDecode imageData (fallbackMime format) ||
  env.blobUrlDecode imageData "image/*"

/-- The trailing-zero strip of `tryCleanDataFallback` (`render.ts`
lines 312-315). -/
def dropTrailingZeros (l : List Nat) : List Nat :=
  (l.reverse.dropWhile fun b => b == 0).reverse

/-- Success of `tryCleanDataFallback` (`render.ts` lines 308-347):
strip trailing zeros, re-trim a WebP stream when the format is `aeiw`
and the recomputed `riffSize` is positive and fits, then try
`createImageBitmap` and finally the image-object route, both under the
format's own MIME type. -/
def tryCleanDataFallback (env : RenderEnv) (imageData : List Nat)
    (format : AeFormat) : Bool :=
  let clean1 := dropTrailingZeros imageData
  let clean2 :=
    if format = .aeiw ∧ hasWebpHeader clean1 = true ∧
        0 < riffSizeOf clean1 ∧ riffSizeOf clean1 ≤ (clean1.length : Int) then
      jsSliceTo clean1 (riffSizeOf clean1)
    else clean1
  env.directDecode clean2 (primaryMime format) ||
  env.imageObjectDecode clean2 (primaryMime format)

/-- Whether any strategy of the decode-fallback chain in `renderToCanvas`
(lines 63-104) yields a bitmap: `createImageBitmapWithFallback`, then
`tryImageObjectFallback` on the primary MIME, then `tryBlobUrlFallback`,
then `tryCleanDataFallback`. -/
def decodeChain (env : RenderEnv) (imageData : List Nat) (format : AeFormat) : Bool :=
  createImageBitmapWithFallback env imageData format ||
  env.imageObjectDecode imageData (primaryMime format) ||
  tryBlobUrlFallback env imageData format ||
  tryCleanDataFallback env imageData format

/-- Embedding of `renderToCanvas` (`src/lib/image/render.ts` lines
7-130): a JPEG-headed stream short-circuits to the unsupported-format
panel; a stream that is neither WebP- nor AVIF-headed short-circuits to
the text panel; otherwise the stream is RIFF-trimmed and run through the
decode-fallback chain — on total failure the
decryption-succeeded-but-render-failed panel is painted, on success the
bitmap is painted, except that a missing 2D context makes the paint
block throw and `renderToCanvas` rethrows (line 122). -/
def renderToCanvas (env : RenderEnv) (fullBytes : List Nat)
    (format : AeFormat) : RenderResult :=
  if hasJpegHeader fullBytes then .unsupportedPanel "JPEG"
  else if hasWebpHeader fullBytes = false ∧ hasAvifHeader fullBytes = false then
    .textPanel
  else
    let imageData := riffTrim fullBytes
    if decodeChain env imageData format then
      if env.ctx2d then .painted else .thrown
    else .decodeFailedPanel

/-- Number of decode strategies attempted by one `renderToCanvas` call
(0 on the two short-circuit paths, otherwise the index of the first
successful strategy, or 4 when every strategy was attempted and
failed). -/
def renderAttempts (env : RenderEnv) (fullBytes : List Nat)
    (format : AeFormat) : Nat :=
  if hasJpegHeader fullBytes then 0
  else if hasWebpHeader fullBytes = false ∧ hasAvifHeader fullBytes = false then 0
  else
    let imageData := riffTrim fullBytes
    if createImageBitmapWithFallback env imageData format then 1
    else if env.imageObjectDecode imageData (primaryMime format) then 2
    else if tryBlobUrlFallback env imageData format then 3
    else 4

theorem parseAe_ok_magic {bytes : List Nat} {pr : ParsedAeFile}
    (h : parseAe bytes = .ok pr) :
    bytes.take 4 = magicBytes .aeia ∨ bytes.take 4 = magicBytes .aeiw := by
  have := (parseAe_isOk bytes).1 (by rw [h]; rfl)
  exact this.2

theorem parseAe_ok_fields {bytes : List Nat} {pr : ParsedAeFile}
    (h : parseAe bytes = .ok pr) :
    pr.iv = (bytes.drop 4).take 12 ∧
    pr.cipher = (bytes.drop 16).take (min 1048576 (bytes.length - 16 - 16)) ∧
    pr.tag = (bytes.drop (16 + min 1048576 (bytes.length - 16 - 16))).take 16 ∧
    pr.tail = bytes.drop (16 + min 1048576 (bytes.length - 16 - 16) + 16) := by
  have h32 := parseAe_ok_length h
  have hm := parseAe_ok_magic h
  simp only [parseAe] at h
  rw [if_neg (by omega), if_pos hm, if_neg (by omega)] at h
  rw [Except.ok.injEq] at h
  subst h
  exact ⟨rfl, rfl, rfl, rfl⟩

/-- C2: for every byte array on which `parseAe` succeeds, the iv is
bytes `[4,16)` (12 bytes), the ciphertext length is
`min(1_048_576, len - 16 - 16)`, the 16-byte authTag immediately follows
the ciphertext, the tail is every remaining byte, and
`4 + 12 + len(cipher) + 16 + len(tail) = len(bytes)`. -/
theorem C2_parsed_container_layout (bytes : List Nat) (pr : ParsedAeFile)
    (h : parseAe bytes = .ok pr) :
    pr.iv = (bytes.drop 4).take 12 ∧ pr.iv.length = 12 ∧
    pr.cipher.length = min 1048576 (bytes.length - 16 - 16) ∧
    pr.tag = (bytes.drop (16 + pr.cipher.length)).take 16 ∧ pr.tag.length = 16 ∧
    pr.tail = bytes.drop (16 + pr.cipher.length + 16) ∧
    4 + 12 + pr.cipher.length + 16 + pr.tail.length = bytes.length := by
  have h32 := parseAe_ok_length h
  obtain ⟨hiv, hc, ht, htl⟩ := parseAe_ok_fields h
  have hclen : pr.cipher.length = min 1048576 (bytes.length - 16 - 16) := by
    rw [hc]
    simp only [List.length_take, List.length_drop]
    omega
  refine ⟨hiv, ?_, hclen, ?_, ?_, ?_, ?_⟩
  · rw [hiv]
    simp only [List.length_take, List.length_drop]
    omega
  · rw [hclen, ht]
  · rw [ht]
    simp only [List.length_take, List.length_drop]
    omega
  · rw [hclen, htl]
  · rw [htl]
    simp only [List.length_drop]
    omega

/-- Concrete 33-byte container for the C2 witness. -/
def c2wBytes : List Nat :=
  [0x61, 0x65, 0x69, 0x61] ++ List.replicate 29 0

/-- Parse result of `c2wBytes`. -/
def c2wParsed : ParsedAeFile :=
  { format := .aeia
    iv := List.replicate 12 0
    cipher := [0]
    tag := List.replicate 16 0
    tail := [] }

theorem C2_parsed_container_layout_witness :
    parseAe c2wBytes = .ok c2wParsed ∧
    (c2wParsed.iv = (c2wBytes.drop 4).take 12 ∧ c2wParsed.iv.length = 12 ∧
     c2wParsed.cipher.length = min 1048576 (c2wBytes.length - 16 - 16) ∧
     c2wParsed.tag = (c2wBytes.drop (16 + c2wParsed.cipher.length)).take 16 ∧
     c2wParsed.tag.length = 16 ∧
     c2wParsed.tail = c2wBytes.drop (16 + c2wParsed.cipher.length + 16) ∧
     4 + 12 + c2wParsed.cipher.length + 16 + c2wParsed.tail.length = c2wBytes.length) :=
  ⟨by rfl, C2_parsed_container_layout c2wBytes c2wParsed (by rfl)⟩

theorem parseAe_err_tooSmallMagic (bytes : List Nat) :
    parseAe bytes = .error .tooSmallMagic ↔ bytes.length < 4 := by
  simp only [parseAe]
  split
  next hlt => exact ⟨fun _ => hlt, fun _ => rfl⟩
  next hge =>
    split
    next hmag =>
      split
      next hle => exact ⟨fun h => absurd h (by simp), fun h => absurd h (by omega)⟩
      next hgt => exact ⟨fun h => absurd h (by simp), fun h => absurd h (by omega)⟩
    next hnm => exact ⟨fun h => absurd h (by simp), fun h => absurd h (by omega)⟩

theorem parseAe_err_badMagic (bytes : List Nat) :
    parseAe bytes = .error .badMagic ↔
      (4 ≤ bytes.length ∧
        ¬(bytes.take 4 = magicBytes .aeia ∨ bytes.take 4 = magicBytes .aeiw)) := by
  simp only [parseAe]
  split
  next hlt => exact ⟨fun h => absurd h (by simp), fun h => absurd h.1 (by omega)⟩
  next hge =>
    split
    next hmag =>
      split
      next hle => exact ⟨fun h => absurd h (by simp), fun h => absurd hmag h.2⟩
      next hgt => exact ⟨fun h => absurd h (by simp), fun h => absurd hmag h.2⟩
    next hnm => exact ⟨fun _ => ⟨by omega, hnm⟩, fun _ => rfl⟩

theorem parseAe_err_tooSmallBody (bytes : List Nat) :
    parseAe bytes = .error .tooSmallBody ↔
      ((bytes.take 4 = magicBytes .aeia ∨ bytes.take 4 = magicBytes .aeiw) ∧
        4 ≤ bytes.length ∧ bytes.length ≤ 32) := by
  simp only [parseAe]
  split
  next hlt => exact ⟨fun h => absurd h (by simp), fun h => absurd h.2.1 (by omega)⟩
  next hge =>
    split
    next hmag =>
      split
      next hle => exact ⟨fun _ => ⟨hmag, by omega, hle⟩, fun _ => rfl⟩
      next hgt => exact ⟨fun h => absurd h (by simp), fun h => absurd h.2.2 hgt⟩
    next hnm => exact ⟨fun h => absurd h (by simp), fun h => absurd h.1 hnm⟩

/-- C3 (amended): `parseAe` succeeds exactly on inputs of length at
least 33 whose first 4 bytes are `aeia` or `aeiw`; it fails when the
input is shorter than 4 bytes (magic error), when the magic is neither
tag (format error), and when the input has valid magic but length at
most 32 — one byte more than the claimed 32-byte minimum, because the
adaptive cipher size `len - 32` must be strictly positive. -/
theorem C3_parse_failure_boundary (bytes : List Nat) :
    (isOkE (parseAe bytes) = true ↔
      (32 < bytes.length ∧
        (bytes.take 4 = magicBytes .aeia ∨ bytes.take 4 = magicBytes .aeiw))) ∧
    (parseAe bytes = .error .tooSmallMagic ↔ bytes.length < 4) ∧
    (parseAe bytes = .error .badMagic ↔
      (4 ≤ bytes.length ∧
        ¬(bytes.take 4 = magicBytes .aeia ∨ bytes.take 4 = magicBytes .aeiw))) ∧
    (parseAe bytes = .error .tooSmallBody ↔
      ((bytes.take 4 = magicBytes .aeia ∨ bytes.take 4 = magicBytes .aeiw) ∧
        4 ≤ bytes.length ∧ bytes.length ≤ 32)) :=
  ⟨parseAe_isOk bytes, parseAe_err_tooSmallMagic bytes,
   parseAe_err_badMagic bytes, parseAe_err_tooSmallBody bytes⟩

/-- The 32-byte input with valid magic on which the original C3 claim
fails: `parseAe` rejects it even though it is 32 bytes long and starts
with `aeia`. -/
def c3Bytes : List Nat :=
  [0x61, 0x65, 0x69, 0x61] ++ List.replicate 28 0

/-- C3 counterexample: a 32-byte container with valid `aeia` magic is
rejected by `parseAe` (`파일 크기 부족`), contradicting the claim that
every input of length at least 32 with valid magic parses. -/
theorem C3_parse_failure_boundary_cex :
    c3Bytes.length = 32 ∧ c3Bytes.take 4 = magicBytes .aeia ∧
    parseAe c3Bytes = .error .tooSmallBody := by
  refine ⟨by rfl, by rfl, by rfl⟩

/-- C4: a key hex string that does not decode to exactly 32 bytes makes
`decryptHeadAESGCM` fail with a dedicated precondition error (a hex
error or the key-length error), for every behaviour of the AEAD
primitive — i.e. before the primitive is invoked — and the error is a
different constructor from the authentication failure; with a 32-byte
key the call fails exactly when the AEAD primitive rejects, and then
the error is always the authentication case. -/
theorem C4_decrypt_error_separation (keyHex : List Char) (iv cipher tag : List Nat) :
    (∀ e, hexToBytes keyHex = .error e →
       ∀ dec : AeadDec, decryptHeadAESGCM dec keyHex iv cipher tag = .error (.hexFail e)) ∧
    (∀ kb, hexToBytes keyHex = .ok kb → kb.length ≠ 32 →
       ∀ dec : AeadDec,
         decryptHeadAESGCM dec keyHex iv cipher tag = .error (.badKeyLength kb.length)) ∧
    (∀ kb, hexToBytes keyHex = .ok kb → kb.length = 32 → ∀ dec : AeadDec,
       (decryptHeadAESGCM dec keyHex iv cipher tag = .error .aeadFail ↔
         dec kb iv (cipher ++ tag) = none) ∧
       (∀ e, decryptHeadAESGCM dec keyHex iv cipher tag = .error e → e = .aeadFail)) := by
  refine ⟨?_, ?_, ?_⟩
  · intro e he dec
    unfold decryptHeadAESGCM
    rw [he]
  · intro kb hk hne dec
    unfold decryptHeadAESGCM
    rw [hk]
    simp [hne]
  · intro kb hk h32 dec
    unfold decryptHeadAESGCM
    rw [hk]
    simp only [h32]
    cases hdec : dec kb iv (cipher ++ tag) with
    | none => simp [hdec]
    | some d => simp [hdec]

/-- An AEAD primitive that rejects every input. -/
def decNone : AeadDec := fun _ _ _ => none

/-- Concrete short key for the C4 witness. -/
def c4wBadKey : List Char := ['a', 'b', 'c', 'd']

/-- Concrete well-formed 64-character key for the C4 witness. -/
def c4wGoodKey : List Char := List.replicate 64 '0'

theorem C4_decrypt_error_separation_witness :
    hexToBytes c4wBadKey = .ok [171, 205] ∧
    decryptHeadAESGCM decNone c4wBadKey [] [] [] = .error (.badKeyLength 2) ∧
    hexToBytes c4wGoodKey = .ok (List.replicate 32 0) ∧
    decryptHeadAESGCM decNone c4wGoodKey [] [] [] = .error .aeadFail := by
  refine ⟨by rfl, ?_, by rfl, ?_⟩
  · have h := (C4_decrypt_error_separation c4wBadKey [] [] []).2.1 [171, 205]
      (by rfl) (by decide) decNone
    simpa using h
  · exact ((C4_decrypt_error_separation c4wGoodKey [] [] []).2.2 (List.replicate 32 0)
      (by rfl) (by rfl) decNone).1.mpr rfl

/-- Consecutive two-character groups of a string (with a final
singleton when the length is odd); under no line terminators this is
what `/.{1,2}/g` produces. -/
def pairup : List Char → List (List Char)
  | [] => []
  | [c] => [[c]]
  | c :: d :: rest => [c, d] :: pairup rest

theorem hexGroups_eq_pairup :
    ∀ l : List Char, (∀ c ∈ l, isLineTerm c = false) → hexGroups l = pairup l
  | [], _ => rfl
  | [c], h => by simp [hexGroups, pairup, h c (by simp)]
  | c :: d :: rest, h => by
    have hc := h c (by simp)
    have hd := h d (by simp)
    simp only [hexGroups, pairup, hc, hd, Bool.false_eq_true, if_false]
    exact congrArg _ (hexGroups_eq_pairup rest fun x hx => h x (by simp [hx]))

theorem pairup_length_even :
    ∀ l : List Char, l.length % 2 = 0 → (pairup l).length = l.length / 2
  | [], _ => rfl
  | [c], h => by simp at h
  | c :: d :: rest, h => by
    have h2 : rest.length % 2 = 0 := by
      simp only [List.length_cons] at h
      omega
    have := pairup_length_even rest h2
    simp only [pairup, List.length_cons]
    omega

theorem pairup_ne_nil : ∀ l : List Char, l ≠ [] → pairup l ≠ []
  | [], h => absurd rfl h
  | [_], _ => by simp [pairup]
  | _ :: _ :: _, _ => by simp [pairup]

/-- C10 (amended): for every string of even non-zero length containing
no line terminators, `hexToBytes` returns, without throwing, one byte
per consecutive two-character group — each group mapped through
JavaScript `parseInt(·,16)` prefix semantics into a `Uint8Array` store
(so a group whose hex value cannot even start to parse becomes 0, while
a group such as `"1g"` becomes the value of its valid prefix) — hence
half the string length many bytes; consequently a 64-character such
string, hex or not, decodes to 32 bytes, passes the key-shape check of
`decryptHeadAESGCM`, and the call's outcome is decided by the AEAD
primitive. -/
theorem C10_hex_lenient_decode (hex : List Char) (dec : AeadDec)
    (iv cipher tag : List Nat)
    (h2 : hex.length % 2 = 0) (hne : hex ≠ [])
    (hnl : ∀ c ∈ hex, isLineTerm c = false) :
    hexToBytes hex = .ok ((pairup hex).map jsGroupByte) ∧
    ((pairup hex).map jsGroupByte).length = hex.length / 2 ∧
    (hex.length = 64 →
      decryptHeadAESGCM dec hex iv cipher tag =
        match dec ((pairup hex).map jsGroupByte) iv (cipher ++ tag) with
        | none => .error .aeadFail
        | some d => .ok (postprocessDecrypted d)) := by
  have hg := hexGroups_eq_pairup hex hnl
  have hok : hexToBytes hex = .ok ((pairup hex).map jsGroupByte) := by
    simp only [hexToBytes, hg]
    rw [if_neg (by omega), if_neg (pairup_ne_nil hex hne)]
  refine ⟨hok, ?_, ?_⟩
  · rw [List.length_map, pairup_length_even hex h2]
  · intro h64
    have hl : ((pairup hex).map jsGroupByte).length = 32 := by
      rw [List.length_map, pairup_length_even hex h2, h64]
    unfold decryptHeadAESGCM
    rw [hok]
    simp [hl]

/-- C10 counterexample: the two-character string of two newline
characters has even non-zero length yet `hexToBytes` throws on it (the
regex match is null, since `.` skips line terminators); and the
two-character group `"1g"`, which is not valid hexadecimal, is decoded
to byte 1 (the parsed prefix of `parseInt`), not to byte 0. -/
theorem C10_hex_lenient_decode_cex :
    [Char.ofNat 10, Char.ofNat 10].length % 2 = 0 ∧
    [Char.ofNat 10, Char.ofNat 10] ≠ [] ∧
    hexToBytes [Char.ofNat 10, Char.ofNat 10] = .error .noMatch ∧
    hexToBytes ['1', 'g'] = .ok [1] := by
  exact ⟨by decide, by simp, by rfl, by rfl⟩

/-- A 64-character string of non-hex characters for the C10 witness. -/
def c10wHex : List Char := List.replicate 64 'g'

theorem C10_hex_lenient_decode_witness :
    c10wHex.length % 2 = 0 ∧ c10wHex ≠ [] ∧
    (∀ c ∈ c10wHex, isLineTerm c = false) ∧
    hexToBytes c10wHex = .ok ((pairup c10wHex).map jsGroupByte) ∧
    ((pairup c10wHex).map jsGroupByte).length = c10wHex.length / 2 ∧
    decryptHeadAESGCM decNone c10wHex [] [] [] =
      match decNone ((pairup c10wHex).map jsGroupByte) [] ([] ++ []) with
      | none => .error .aeadFail
      | some d => .ok (postprocessDecrypted d) := by
  have h := C10_hex_lenient_decode c10wHex decNone [] [] []
    (by decide) (by decide) (by decide)
  exact ⟨by decide, by decide, by decide, h.1, h.2.1, h.2.2 (by decide)⟩

/-- Environment whose decode oracles all fail and whose 2D context is
available. -/
def envAllFail : RenderEnv :=
  ⟨fun _ _ => false, fun _ _ => false, fun _ _ => false, true⟩

/-- C5 (amended): the first decode attempt of
`createImageBitmapWithFallback` is always tagged `image/avif` and the
same (trimmed) bytes are retried as `image/webp` exactly when that
first attempt fails — regardless of the container format, whose
parameter the source declares but never reads. -/
theorem C5_decode_attempt_order (env : RenderEnv) (bytes : List Nat)
    (format : AeFormat) :
    (cibfAttemptMimes env bytes format).head? = some "image/avif" ∧
    (cibfAttemptMimes env bytes format = ["image/avif", "image/webp"] ↔
      env.directDecode (riffTrim bytes) "image/avif" = false) ∧
    createImageBitmapWithFallback env bytes format =
      (env.directDecode (riffTrim bytes) "image/avif" ||
        env.directDecode (riffTrim bytes) "image/webp") := by
  unfold cibfAttemptMimes createImageBitmapWithFallback
  cases h : env.directDecode (riffTrim bytes) "image/avif" <;> simp [h]

/-- C5 counterexample: for a `aeiw` (WebP) container the first decode
attempt is tagged `image/avif`, not the format-implied `image/webp`. -/
theorem C5_decode_attempt_order_cex :
    (cibfAttemptMimes envAllFail [] .aeiw).head? = some "image/avif" ∧
    primaryMime .aeiw = "image/webp" ∧
    ("image/avif" : String) ≠ "image/webp" := by
  exact ⟨by rfl, by rfl, by decide⟩

theorem bAt_lt {l : List Nat} {i v : Nat} (h : bAt l i v = true) : i < l.length := by
  unfold bAt at h
  rw [beq_iff_eq] at h
  exact (List.getElem?_eq_some.1 h).1

theorem getD_lt_256 {l : List Nat} (hb : ∀ x ∈ l, x < 256) {k : Nat}
    (hk : k < l.length) : l.getD k 0 < 256 := by
  rw [List.getD_eq_getElem?_getD, List.getElem?_eq_getElem hk]
  exact hb _ (List.getElem_mem ..)

theorem toInt32_small {n : Nat} (h : n < 2147483648) : toInt32 n = (n : Int) := by
  unfold toInt32
  rw [Nat.mod_eq_of_lt (by omega)]
  rw [if_pos (by omega)]

/-- C6 (amended): for a byte-valued WebP stream whose declared RIFF
size field has its top bit clear (so the source's signed 32-bit read
agrees with the unsigned value), the trimmed length equals
`min(declaredSize + 8, len)`, with the actual length used — without
throwing — when the declared size exceeds it.  (For a size field with
the top bit set, the source's `b[7]<<24` is negative; see the
counterexample.) -/
theorem C6_riff_trim_clamps (bytes : List Nat)
    (hb : ∀ x ∈ bytes, x < 256) (hw : hasWebpHeader bytes = true)
    (h7 : bytes.getD 7 0 < 128) :
    (riffTrim bytes).length = min (riffRaw bytes + 8) bytes.length := by
  have hw' := hw
  unfold hasWebpHeader hasRiffHeader at hw'
  rw [Bool.and_eq_true, Bool.and_eq_true, Bool.and_eq_true, Bool.and_eq_true] at hw'
  have h11 : 11 < bytes.length := bAt_lt hw'.2
  have h4 := getD_lt_256 hb (show 4 < bytes.length by omega)
  have h5 := getD_lt_256 hb (show 5 < bytes.length by omega)
  have h6 := getD_lt_256 hb (show 6 < bytes.length by omega)
  have hraw : riffRaw bytes < 2147483648 := by
    unfold riffRaw
    omega
  have hsz : riffSizeOf bytes = (riffRaw bytes : Int) + 8 := by
    unfold riffSizeOf
    rw [toInt32_small hraw]
  unfold riffTrim
  rw [if_pos hw]
  split
  next hle =>
    rw [hsz] at hle
    unfold jsSliceTo jsSliceEnd
    rw [hsz]
    rw [if_neg (by omega)]
    rw [List.length_take]
    omega
  next hgt =>
    rw [hsz] at hgt
    omega

/-- Concrete WebP stream with the size field `0xFFFFFFFF` for the C6
counterexample. -/
def c6Bytes : List Nat :=
  [0x52, 0x49, 0x46, 0x46, 0xFF, 0xFF, 0xFF, 0xFF, 0x57, 0x45, 0x42, 0x50] ++
    List.replicate 28 0

/-- C6 counterexample: for a 40-byte WebP stream whose declared RIFF
size is `0xFFFFFFFF`, the claimed trimmed length is
`min(0xFFFFFFFF + 8, 40) = 40`, but the source's signed 32-bit read
yields `riffSize = -1 + 8 = 7` and the stream is cut to 7 bytes. -/
theorem C6_riff_trim_clamps_cex :
    hasWebpHeader c6Bytes = true ∧ c6Bytes.length = 40 ∧
    riffRaw c6Bytes = 4294967295 ∧ (riffTrim c6Bytes).length = 7 ∧
    min (riffRaw c6Bytes + 8) c6Bytes.length = 40 ∧
    (riffTrim c6Bytes).length ≠ min (riffRaw c6Bytes + 8) c6Bytes.length := by
  decide

/-- Concrete WebP stream whose declared size (100) exceeds its actual
length (20), for the C6 witness. -/
def c6wBytes : List Nat :=
  [0x52, 0x49, 0x46, 0x46, 100, 0, 0, 0, 0x57, 0x45, 0x42, 0x50] ++
    List.replicate 8 0

theorem C6_riff_trim_clamps_witness :
    (∀ x ∈ c6wBytes, x < 256) ∧ hasWebpHeader c6wBytes = true ∧
    c6wBytes.getD 7 0 < 128 ∧
    (riffTrim c6wBytes).length = min (riffRaw c6wBytes + 8) c6wBytes.length :=
  ⟨by decide, by decide, by decide,
   C6_riff_trim_clamps c6wBytes (by decide) (by decide) (by decide)⟩

/-- C7 (amended): a reassembled stream that sniffs as none of JPEG,
WebP, AVIF — the all-zero payload in particular — makes `renderToCanvas`
short-circuit to the text-mode diagnostic panel without attempting a
single decode strategy; the all-strategies-failed terminal
(`renderDecryptionSuccessButRenderFailed`) is reserved for WebP/AVIF
streams whose every strategy fails.  The outcome is a normal return,
not a decrypt or parse error. -/
theorem C7_unknown_stream_short_circuit (env : RenderEnv) (bytes : List Nat)
    (format : AeFormat)
    (hj : hasJpegHeader bytes = false) (hw : hasWebpHeader bytes = false)
    (ha : hasAvifHeader bytes = false) :
    renderToCanvas env bytes format = .textPanel ∧
    renderAttempts env bytes format = 0 := by
  unfold renderToCanvas renderAttempts
  rw [if_neg (by simp [hj]), if_pos ⟨hw, ha⟩, if_neg (by simp [hj]), if_pos ⟨hw, ha⟩]
  exact ⟨rfl, rfl⟩

/-- The 1 MiB all-zero decrypted payload of the end-to-end example. -/
def zeroStream : List Nat := List.replicate 1048576 0

theorem bAt_replicate_zero (n i v : Nat) (hv : v ≠ 0) :
    bAt (List.replicate n 0) i v = false := by
  unfold bAt
  rw [List.getElem?_replicate]
  split
  · simp [hv.symm]
  · simp

theorem hasAvif_replicate_zero (n : Nat) (h : 8 ≤ n) :
    hasAvifHeader (List.replicate n 0) = false := by
  unfold hasAvifHeader
  rw [List.drop_replicate, List.take_replicate]
  have hm : min 4 (n - 4) = 4 := by omega
  rw [hm]
  decide

theorem hasJpeg_replicate_zero (n : Nat) :
    hasJpegHeader (List.replicate n 0) = false := by
  simp [hasJpegHeader, bAt_replicate_zero]

theorem hasWebp_replicate_zero (n : Nat) :
    hasWebpHeader (List.replicate n 0) = false := by
  simp [hasWebpHeader, hasRiffHeader, bAt_replicate_zero]

theorem zeroStream_headers :
    hasJpegHeader zeroStream = false ∧ hasWebpHeader zeroStream = false ∧
    hasAvifHeader zeroStream = false :=
  ⟨hasJpeg_replicate_zero 1048576, hasWebp_replicate_zero 1048576,
   hasAvif_replicate_zero 1048576 (by omega)⟩

/-- C7 counterexample: on the 1,048,576-byte all-zero stream the engine
returns the text-mode panel having attempted zero decode strategies; it
does not reach the all-strategies-failed terminal, contradicting the
claimed per-strategy error report. -/
theorem C7_unknown_stream_short_circuit_cex :
    renderToCanvas envAllFail zeroStream .aeiw = .textPanel ∧
    RenderResult.textPanel ≠ RenderResult.decodeFailedPanel ∧
    renderAttempts envAllFail zeroStream .aeiw = 0 := by
  obtain ⟨hj, hw, ha⟩ := zeroStream_headers
  refine ⟨?_, by decide, ?_⟩
  · unfold renderToCanvas
    rw [if_neg (by simp [hj]), if_pos ⟨hw, ha⟩]
  · unfold renderAttempts
    rw [if_neg (by simp [hj]), if_pos ⟨hw, ha⟩]

theorem C7_unknown_stream_short_circuit_witness :
    hasJpegHeader zeroStream = false ∧ hasWebpHeader zeroStream = false ∧
    hasAvifHeader zeroStream = false ∧
    (renderToCanvas envAllFail zeroStream .aeiw = .textPanel ∧
      renderAttempts envAllFail zeroStream .aeiw = 0) :=
  ⟨zeroStream_headers.1, zeroStream_headers.2.1, zeroStream_headers.2.2,
   C7_unknown_stream_short_circuit envAllFail zeroStream .aeiw
     zeroStream_headers.1 zeroStream_headers.2.1 zeroStream_headers.2.2⟩

/-- C8: a stream whose first three bytes are `FF D8 FF` is classified
JPEG and `renderToCanvas` short-circuits to the format-not-supported
panel, attempting no decode strategy. -/
theorem C8_jpeg_short_circuit (env : RenderEnv) (bytes : List Nat)
    (format : AeFormat) (h : bytes.take 3 = [0xFF, 0xD8, 0xFF]) :
    renderToCanvas env bytes format = .unsupportedPanel "JPEG" ∧
    renderAttempts env bytes format = 0 := by
  have hj : hasJpegHeader bytes = true := by
    have h0 := congrArg (fun t : List Nat => t[0]?) h
    have h1 := congrArg (fun t : List Nat => t[1]?) h
    have h2 := congrArg (fun t : List Nat => t[2]?) h
    simp only [List.getElem?_take] at h0 h1 h2
    simp at h0 h1 h2
    simp [hasJpegHeader, bAt, h0, h1, h2]
  unfold renderToCanvas renderAttempts
  rw [if_pos hj, if_pos hj]
  exact ⟨rfl, rfl⟩

theorem C8_jpeg_short_circuit_witness :
    ([0xFF, 0xD8, 0xFF, 0x07] : List Nat).take 3 = [0xFF, 0xD8, 0xFF] ∧
    (renderToCanvas envAllFail [0xFF, 0xD8, 0xFF, 0x07] .aeia =
       .unsupportedPanel "JPEG" ∧
      renderAttempts envAllFail [0xFF, 0xD8, 0xFF, 0x07] .aeia = 0) :=
  ⟨by decide, C8_jpeg_short_circuit envAllFail [0xFF, 0xD8, 0xFF, 0x07] .aeia (by decide)⟩

/-- C9 (amended): as long as the 2D canvas context is obtainable during
the final paint, no exception escapes `renderToCanvas` — every input
ends in a normal return painting a bitmap or a diagnostic panel; only
when a decoded bitmap is painted onto a canvas whose 2D context is
unavailable does the rethrow at `render.ts` line 122 escape. -/
theorem C9_no_escape_when_ctx (env : RenderEnv) (bytes : List Nat)
    (format : AeFormat) (h : env.ctx2d = true) :
    renderToCanvas env bytes format ≠ RenderResult.thrown := by
  unfold renderToCanvas
  split
  · simp
  · split
    · simp
    · simp only [h, if_true]
      split <;> simp

/-- Environment whose direct decode succeeds but whose canvas cannot
produce a 2D context. -/
def envNoCtx : RenderEnv :=
  ⟨fun _ _ => true, fun _ _ => false, fun _ _ => false, false⟩

/-- Minimal 12-byte WebP stream for the C9 counterexample. -/
def c9Bytes : List Nat :=
  [0x52, 0x49, 0x46, 0x46, 4, 0, 0, 0, 0x57, 0x45, 0x42, 0x50]

/-- C9 counterexample: with a successfully decoded bitmap and an
unobtainable 2D context, the error thrown in the paint block is
rethrown by `renderToCanvas` (line 122) and escapes, contradicting the
claim that no exception ever escapes the presentation sink. -/
theorem C9_no_escape_when_ctx_cex :
    renderToCanvas envNoCtx c9Bytes .aeiw = RenderResult.thrown := by
  decide

theorem C9_no_escape_when_ctx_witness :
    envAllFail.ctx2d = true ∧
    renderToCanvas envAllFail [] .aeia ≠ RenderResult.thrown :=
  ⟨rfl, C9_no_escape_when_ctx envAllFail [] .aeia rfl⟩

theorem postprocess_id_of_no_trim {p : List Nat}
    (hnoJ : hasJpegHeader p = false)
    (hnoW : hasWebpHeader p = true → (p.length : Int) ≤ riffSizeOf p) :
    postprocessDecrypted p = p := by
  unfold postprocessDecrypted
  split
  next hwb =>
    have hle := hnoW hwb
    have hminI : min (riffSizeOf p) ((p.length : Int)) = ((p.length : Int)) := by omega
    rw [hminI]
    unfold jsSliceTo jsSliceEnd
    rw [if_neg (by omega)]
    simp
  next hwb =>
    rw [if_neg (by simp [hnoJ])]

/-- C1 (amended): the container round-trip reproduces the plaintext
`P` byte-for-byte — with `head = P.take 1 MiB` of length equal to the
ciphertext length, for `L < 1 MiB`, `L = 1 MiB` (empty tail) and
`L > 1 MiB` (non-empty tail) alike — provided `P` is non-empty (an empty
plaintext gives a 32-byte container, which `parseAe` rejects) and the
decrypted head is not subject to the decryptor's padding-trimming: it
must not start with a JPEG signature, and if it starts with a RIFF/WebP
signature its declared RIFF size + 8 must be at least the head length
(otherwise `decryptHeadAESGCM` cuts the head; see the counterexample).
The AEAD primitive is abstract: any `dec` that returns the head on the
container's ciphertext-plus-tag under the 32-byte key. -/
theorem C1_roundtrip (fmt : AeFormat) (dec : AeadDec) (keyHex : List Char)
    (keyBytes iv cipher tag P : List Nat)
    (hkey : hexToBytes keyHex = .ok keyBytes) (hkl : keyBytes.length = 32)
    (hiv : iv.length = 12) (htag : tag.length = 16) (hP : P ≠ [])
    (hclen : cipher.length = min P.length 1048576)
    (hdec : dec keyBytes iv (cipher ++ tag) = some (P.take 1048576))
    (hnoJ : hasJpegHeader (P.take 1048576) = false)
    (hnoW : hasWebpHeader (P.take 1048576) = true →
      ((P.take 1048576).length : Int) ≤ riffSizeOf (P.take 1048576)) :
    parseAe (magicBytes fmt ++ iv ++ cipher ++ tag ++ P.drop 1048576) =
      .ok ⟨fmt, iv, cipher, tag, P.drop 1048576⟩ ∧
    decryptHeadAESGCM dec keyHex iv cipher tag = .ok (P.take 1048576) ∧
    P.take 1048576 ++ P.drop 1048576 = P ∧
    (P.take 1048576).length = cipher.length := by
  have hm4 : (magicBytes fmt).length = 4 := by cases fmt <;> rfl
  have hPlen : 0 < P.length := List.length_pos.2 hP
  have htlen : (P.drop 1048576).length = P.length - 1048576 := by
    simp [List.length_drop]
  have hsplit : magicBytes fmt ++ iv ++ cipher ++ tag ++ P.drop 1048576 =
      magicBytes fmt ++ (iv ++ (cipher ++ (tag ++ P.drop 1048576))) := by
    simp [List.append_assoc]
  set C := magicBytes fmt ++ iv ++ cipher ++ tag ++ P.drop 1048576 with hC
  have hClen : C.length = 4 + 12 + cipher.length + 16 + (P.drop 1048576).length := by
    rw [hsplit]
    simp [List.length_append, hm4, hiv, htag]
    omega
  have hmin : min 1048576 (C.length - 16 - 16) = cipher.length := by
    omega
  have htake4 : C.take 4 = magicBytes fmt := by
    rw [hsplit]
    exact List.take_left' hm4
  have hdrop4 : (C.drop 4).take 12 = iv := by
    rw [hsplit, List.drop_left' hm4]
    exact List.take_left' hiv
  have hcip : (C.drop 16).take cipher.length = cipher := by
    rw [hsplit, ← List.append_assoc,
      List.drop_left' (by rw [List.length_append, hm4, hiv])]
    exact List.take_left' rfl
  have htagC : (C.drop (16 + cipher.length)).take 16 = tag := by
    rw [hsplit, ← List.append_assoc, ← List.append_assoc,
      List.drop_left' (by rw [List.length_append, List.length_append, hm4, hiv])]
    exact List.take_left' htag
  have htailC : C.drop (16 + cipher.length + 16) = P.drop 1048576 := by
    rw [hsplit, ← List.append_assoc, ← List.append_assoc, ← List.append_assoc]
    refine List.drop_left' ?_
    rw [List.length_append, List.length_append, List.length_append, hm4, hiv, htag]
  have hmagic : C.take 4 = magicBytes .aeia ∨ C.take 4 = magicBytes .aeiw := by
    rw [htake4]
    cases fmt
    · exact Or.inl rfl
    · exact Or.inr rfl
  have hfmt : (if C.take 4 = magicBytes .aeia then AeFormat.aeia else .aeiw) = fmt := by
    rw [htake4]
    cases fmt
    · rw [if_pos rfl]
    · rw [if_neg (by decide)]
  have hparse : parseAe C = .ok ⟨fmt, iv, cipher, tag, P.drop 1048576⟩ := by
    simp only [parseAe]
    rw [if_neg (by omega), if_pos hmagic, if_neg (by omega)]
    rw [hmin]
    simp only [Except.ok.injEq, ParsedAeFile.mk.injEq]
    exact ⟨hfmt, hdrop4, hcip, htagC, htailC⟩
  have hpost := postprocess_id_of_no_trim hnoJ hnoW
  have hdecr : decryptHeadAESGCM dec keyHex iv cipher tag = .ok (P.take 1048576) := by
    unfold decryptHeadAESGCM
    rw [hkey]
    simp [hkl, hdec, hpost]
  refine ⟨hparse, hdecr, List.take_append_drop .., ?_⟩
  rw [List.length_take]
  omega

/-- Well-formed 64-character hex key used in the C1 instances. -/
def c1Key : List Char := List.replicate 64 '0'

/-- A 21-byte plaintext beginning with a RIFF/WebP header whose
declared size (5, so riffSize 13) is smaller than the plaintext. -/
def c1P : List Nat :=
  [0x52, 0x49, 0x46, 0x46, 5, 0, 0, 0, 0x57, 0x45, 0x42, 0x50, 0,
   1, 2, 3, 4, 5, 6, 7, 8]

/-- A correct AEAD model for the identity cipher: decryption strips the
16-byte tag and returns the ciphertext bytes as plaintext. -/
def c1Dec : AeadDec := fun _ _ c => some (c.take (c.length - 16))

/-- The container built per the bit-exact layout over `c1P`
(`L = 21 < 1 MiB`, so the whole plaintext is the encrypted head and the
tail is empty). -/
def c1Container : List Nat :=
  magicBytes .aeiw ++ List.replicate 12 0 ++ c1P ++ List.replicate 16 0 ++ []

/-- C1 counterexample: the container over the 21-byte plaintext `c1P`
parses correctly and the AEAD decryption itself returns all 21 bytes,
but `decryptHeadAESGCM` cuts the head to its declared RIFF size
(13 bytes, `패딩 제거`), so the reassembled `head ++ tail` has 13 bytes,
not 21, and the decrypted head length differs from the ciphertext
length — refuting the round-trip claim. -/
theorem C1_roundtrip_cex :
    hexToBytes c1Key = .ok (List.replicate 32 0) ∧
    c1Dec (List.replicate 32 0) (List.replicate 12 0)
      (c1P ++ List.replicate 16 0) = some c1P ∧
    parseAe c1Container =
      .ok ⟨.aeiw, List.replicate 12 0, c1P, List.replicate 16 0, []⟩ ∧
    decryptHeadAESGCM c1Dec c1Key (List.replicate 12 0) c1P
      (List.replicate 16 0) = .ok (c1P.take 13) ∧
    (c1P.take 13).length = 13 ∧ c1P.length = 21 ∧
    c1P.take 13 ++ ([] : List Nat) ≠ c1P :=
  ⟨by rfl, by rfl, by rfl, by rfl, by rfl, by rfl, by decide⟩

/-- AEAD model used by the C1 witness. -/
def c1wDec : AeadDec := fun _ _ _ => some [1]

theorem C1_roundtrip_witness :
    hexToBytes c1Key = .ok (List.replicate 32 0) ∧
    (List.replicate 32 (0 : Nat)).length = 32 ∧
    (List.replicate 12 (0 : Nat)).length = 12 ∧
    (List.replicate 16 (0 : Nat)).length = 16 ∧
    ([1] : List Nat) ≠ [] ∧
    ([9] : List Nat).length = min ([1] : List Nat).length 1048576 ∧
    c1wDec (List.replicate 32 0) (List.replicate 12 0)
      ([9] ++ List.replicate 16 0) = some (([1] : List Nat).take 1048576) ∧
    hasJpegHeader (([1] : List Nat).take 1048576) = false ∧
    (parseAe (magicBytes .aeia ++ List.replicate 12 0 ++ [9] ++
        List.replicate 16 0 ++ ([1] : List Nat).drop 1048576) =
      .ok ⟨.aeia, List.replicate 12 0, [9], List.replicate 16 0,
            ([1] : List Nat).drop 1048576⟩ ∧
     decryptHeadAESGCM c1wDec c1Key (List.replicate 12 0) [9]
        (List.replicate 16 0) = .ok (([1] : List Nat).take 1048576) ∧
     ([1] : List Nat).take 1048576 ++ ([1] : List Nat).drop 1048576 = [1] ∧
     (([1] : List Nat).take 1048576).length = ([9] : List Nat).length) :=
  ⟨by rfl, by decide, by decide, by decide, by decide, by decide, by rfl, by decide,
   C1_roundtrip .aeia c1wDec c1Key (List.replicate 32 0) (List.replicate 12 0)
     [9] (List.replicate 16 0) [1] (by rfl) (by decide) (by decide) (by decide)
     (by decide) (by decide) (by rfl) (by decide) (by decide)⟩
